import Mathlib

/-
Verification of the event-distribution hub of `gascountry`
(backend/src/ws/{messages.rs, connections.rs, mod.rs}).

The embedding is shallow and executable:
* `HashMap<Uuid, V>` becomes an association list `List (Uuid × V)` with
  get / insert-in-place / remove operations; `HashSet<Uuid>` becomes a
  duplicate-free `List Uuid`.
* `tokio::sync::broadcast` becomes `BChannel`: the full append-only
  history of successfully sent messages plus one cursor per live
  receiver.  The bounded ring buffer (capacity 256, drop-oldest) is
  represented by the read window: a receiver may only read indices at
  least `sent.length - CHANNEL_CAPACITY`; a cursor below that window
  yields a `lagged` result and jumps to the oldest retained index,
  exactly tokio's `RecvError::Lagged` semantics.  `send` with zero
  receivers returns an error and does not buffer the value, as in tokio.
* The per-connection WebSocket loop of `handle_socket` becomes a step
  function on the hub state plus a per-connection record of the outbound
  mpsc queue and the spawned forwarding tasks (one receiver each).
-/

namespace GasCountry

/-- Opaque 128-bit identifiers (`uuid::Uuid`) modelled as naturals. -/
abbrev Uuid := Nat

/-- messages.rs: `OutputStream`. -/
inductive OutputStream
  | Stdout
  | Stderr
deriving DecidableEq, Repr

/-- messages.rs: `SessionStatus`. -/
inductive SessionStatus
  | Idle
  | Running
  | Completed
  | Error
  | Cancelled
deriving DecidableEq, Repr

/-- messages.rs: `ClientMessage` (client → server commands). -/
inductive ClientMessage
  | Subscribe (session_id : Uuid)
  | Unsubscribe (session_id : Uuid)
  | Cancel (session_id : Uuid)
  | Ping
deriving DecidableEq, Repr

/-- messages.rs: `ServerMessage` (server → client events). -/
inductive ServerMessage
  | Subscribed (session_id : Uuid)
  | Unsubscribed (session_id : Uuid)
  | Output (session_id : Uuid) (stream : OutputStream) (content : String)
  | Status (session_id : Uuid) (status : SessionStatus)
  | Error (message : String)
  | Pong
deriving DecidableEq, Repr

/-- Lookup in an association list, i.e. `HashMap::get`. -/
def alGet {V : Type} : List (Uuid × V) → Uuid → Option V
  | [], _ => none
  | (k', v) :: rest, k => if k' = k then some v else alGet rest k

/-- `HashMap::insert`: replace the value at the key, or add the entry. -/
def alInsert {V : Type} : List (Uuid × V) → Uuid → V → List (Uuid × V)
  | [], k, v => [(k, v)]
  | (k', v') :: rest, k, v =>
      if k' = k then (k, v) :: rest else (k', v') :: alInsert rest k v

/-- `HashMap::remove` (dropping the returned value). -/
def alRemove {V : Type} (m : List (Uuid × V)) (k : Uuid) : List (Uuid × V) :=
  m.filter (fun p => p.1 ≠ k)

/-- `HashSet::insert`. -/
def hsInsert (s : List Uuid) (x : Uuid) : List Uuid :=
  if x ∈ s then s else s ++ [x]

/-- `HashSet::remove`. -/
def hsRemove (s : List Uuid) (x : Uuid) : List Uuid :=
  s.erase x

/-- connections.rs: `CHANNEL_CAPACITY`, capacity of each broadcast channel. -/
def CHANNEL_CAPACITY : Nat := 256

/-- A `tokio::sync::broadcast` channel: append-only history of sent
messages, live receivers as `rid ↦ cursor`, and the next fresh
receiver id. -/
structure BChannel where
  sent : List ServerMessage
  receivers : List (Uuid × Nat)
  nextRid : Nat
deriving DecidableEq, Repr

/-- `broadcast::channel(CHANNEL_CAPACITY)`: fresh channel, no receivers. -/
def BChannel.new : BChannel :=
  { sent := [], receivers := [], nextRid := 0 }

/-- `Sender::receiver_count`. -/
def BChannel.receiver_count (ch : BChannel) : Nat :=
  ch.receivers.length

/-- `Sender::subscribe`: a fresh receiver positioned at the current tail,
so it observes only messages sent after this call. -/
def BChannel.subscribeCh (ch : BChannel) : BChannel × Nat :=
  ({ ch with
      receivers := ch.receivers ++ [(ch.nextRid, ch.sent.length)],
      nextRid := ch.nextRid + 1 },
   ch.nextRid)

/-- `Sender::send`: with zero receivers the value is rejected (returned
in the `Err`) and never buffered; otherwise it is appended.  The `Bool`
is `true` iff the send succeeded. -/
def BChannel.sendMsg (ch : BChannel) (e : ServerMessage) : BChannel × Bool :=
  if ch.receivers.isEmpty then (ch, false)
  else ({ ch with sent := ch.sent ++ [e] }, true)

/-- Outcome of `Receiver::recv`: a message, a `RecvError::Lagged` (the
cursor fell out of the bounded window), or nothing currently available. -/
inductive RecvResult
  | ok (e : ServerMessage)
  | lagged
  | empty
deriving DecidableEq, Repr

/-- `Receiver::recv` for the receiver `rid`.  A cursor below
`sent.length - CHANNEL_CAPACITY` has been overrun by drop-oldest and is
repositioned to the oldest retained message, reporting `lagged`. -/
def BChannel.recvAt (ch : BChannel) (rid : Nat) : RecvResult × BChannel :=
  match alGet ch.receivers rid with
  | none => (.empty, ch)
  | some c =>
      if h : c < ch.sent.length then
        if c < ch.sent.length - CHANNEL_CAPACITY then
          (.lagged,
           { ch with receivers :=
               alInsert ch.receivers rid (ch.sent.length - CHANNEL_CAPACITY) })
        else
          (.ok (ch.sent.get ⟨c, h⟩),
           { ch with receivers := alInsert ch.receivers rid (c + 1) })
      else (.empty, ch)

/-- Dropping a `Receiver` handle removes it from the channel. -/
def BChannel.dropReceiver (ch : BChannel) (rid : Nat) : BChannel :=
  { ch with receivers := alRemove ch.receivers rid }

/-- connections.rs: `ConnectionManagerInner` — the state behind the
`Arc<RwLock<_>>` of `ConnectionManager`. -/
structure ConnectionManagerInner where
  session_channels : List (Uuid × BChannel)
  connection_subscriptions : List (Uuid × List Uuid)
deriving DecidableEq, Repr

namespace ConnectionManagerInner

/-- `ConnectionManager::new`. -/
def new : ConnectionManagerInner :=
  { session_channels := [], connection_subscriptions := [] }

/-- `ConnectionManager::register_connection`: inserts an empty
subscription set for the connection, overwriting any existing entry. -/
def register_connection (st : ConnectionManagerInner) (connection_id : Uuid) :
    ConnectionManagerInner :=
  { st with connection_subscriptions :=
      alInsert st.connection_subscriptions connection_id [] }

/-- The loop body of `unregister_connection`: if the session's channel
exists and has no receivers left, remove it. -/
def cleanupStep (acc : ConnectionManagerInner) (session_id : Uuid) :
    ConnectionManagerInner :=
  match alGet acc.session_channels session_id with
  | some sender =>
      if sender.receiver_count = 0 then
        { acc with session_channels :=
            alRemove acc.session_channels session_id }
      else acc
  | none => acc

/-- `ConnectionManager::unregister_connection`: removes the connection's
record and, for each session it was subscribed to, removes that
session's channel when its receiver count is zero.  (`HashSet`
iteration order is arbitrary; each step touches only its own key, so
the list order chosen here is immaterial.) -/
def unregister_connection (st : ConnectionManagerInner) (connection_id : Uuid) :
    ConnectionManagerInner :=
  match alGet st.connection_subscriptions connection_id with
  | none => st
  | some subscriptions =>
      subscriptions.foldl cleanupStep
        { st with connection_subscriptions :=
            alRemove st.connection_subscriptions connection_id }

/-- `ConnectionManager::subscribe`: records the session in the
connection's set (only if the connection is registered), gets or
creates the session's broadcast channel, and returns a fresh receiver
`(session_id, rid)`. -/
def subscribe (st : ConnectionManagerInner) (connection_id session_id : Uuid) :
    ConnectionManagerInner × (Uuid × Nat) :=
  let subs1 :=
    match alGet st.connection_subscriptions connection_id with
    | some subs =>
        alInsert st.connection_subscriptions connection_id (hsInsert subs session_id)
    | none => st.connection_subscriptions
  let ch :=
    match alGet st.session_channels session_id with
    | some ch => ch
    | none => BChannel.new
  let p := ch.subscribeCh
  ({ session_channels := alInsert st.session_channels session_id p.1,
     connection_subscriptions := subs1 },
   (session_id, p.2))

/-- `ConnectionManager::unsubscribe`: removes the session from the
connection's set (if the connection is registered); nothing else. -/
def unsubscribe (st : ConnectionManagerInner) (connection_id session_id : Uuid) :
    ConnectionManagerInner :=
  match alGet st.connection_subscriptions connection_id with
  | some subs =>
      { st with connection_subscriptions :=
          alInsert st.connection_subscriptions connection_id (hsRemove subs session_id) }
  | none => st

/-- `ConnectionManager::broadcast`: sends on the session's channel when
one exists, ignoring the send error; no channel is created. -/
def broadcast (st : ConnectionManagerInner) (session_id : Uuid)
    (message : ServerMessage) : ConnectionManagerInner :=
  match alGet st.session_channels session_id with
  | some sender =>
      { st with session_channels :=
          alInsert st.session_channels session_id (sender.sendMsg message).1 }
  | none => st

/-- `ConnectionManager::has_subscribers`. -/
def has_subscribers (st : ConnectionManagerInner) (session_id : Uuid) : Bool :=
  match alGet st.session_channels session_id with
  | some s => decide (0 < s.receiver_count)
  | none => false

/-- Dropping a receiver handle `(session_id, rid)` obtained from
`subscribe`, as seen through the registry. -/
def dropReceiverH (st : ConnectionManagerInner) (r : Uuid × Nat) :
    ConnectionManagerInner :=
  match alGet st.session_channels r.1 with
  | some ch =>
      { st with session_channels :=
          alInsert st.session_channels r.1 (ch.dropReceiver r.2) }
  | none => st

end ConnectionManagerInner

/-- ws/mod.rs `handle_socket`: per-connection state — the contents of the
outbound mpsc queue and the receivers held by the spawned forwarding
tasks, in spawn order. -/
structure ConnState where
  outbox : List ServerMessage
  forwarders : List (Uuid × Nat)
deriving DecidableEq, Repr

/-- An inbound WebSocket frame as seen by the receive loop: a text frame
carries the outcome of `serde_json::from_str::<ClientMessage>` (the
codec is external to this core), plus the close and other frame kinds. -/
inductive Frame
  | text (decoded : Except String ClientMessage)
  | close
  | other

/-- ws/mod.rs `handle_socket`, dispatch of one decoded `ClientMessage`.
`Subscribe` unconditionally spawns a new forwarding task holding the
fresh receiver and queues a `Subscribed` ack. -/
def handleClientMessage (cid : Uuid) (hub : ConnectionManagerInner)
    (conn : ConnState) :
    ClientMessage → ConnectionManagerInner × ConnState
  | .Subscribe session_id =>
      let p := hub.subscribe cid session_id
      (p.1,
       { conn with
           forwarders := conn.forwarders ++ [p.2],
           outbox := conn.outbox ++ [ServerMessage.Subscribed session_id] })
  | .Unsubscribe session_id =>
      (hub.unsubscribe cid session_id,
       { conn with outbox := conn.outbox ++ [ServerMessage.Unsubscribed session_id] })
  | .Cancel session_id =>
      (hub.broadcast session_id (ServerMessage.Status session_id SessionStatus.Cancelled),
       conn)
  | .Ping =>
      (hub, { conn with outbox := conn.outbox ++ [ServerMessage.Pong] })

/-- ws/mod.rs `handle_socket`, one iteration of the receive loop.  The
`Bool` is `true` iff the loop continues (the connection stays open):
a text frame never breaks the loop — on decode failure exactly one
`Error` envelope is queued and the loop continues. -/
def handleFrame (cid : Uuid) (hub : ConnectionManagerInner) (conn : ConnState) :
    Frame → ConnectionManagerInner × ConnState × Bool
  | .text (.error e) =>
      (hub,
       { conn with outbox :=
           conn.outbox ++ [ServerMessage.Error ("Invalid message format: " ++ e)] },
       true)
  | .text (.ok m) =>
      let p := handleClientMessage cid hub conn m
      (p.1, p.2, true)
  | .close => (hub, conn, false)
  | .other => (hub, conn, true)

/-- One step of a forwarding task: `rx.recv()` on the task's receiver
and, on success, push of the message into the connection's outbound
queue. -/
def pumpOnce (hub : ConnectionManagerInner) (conn : ConnState) (r : Uuid × Nat) :
    ConnectionManagerInner × ConnState :=
  match alGet hub.session_channels r.1 with
  | none => (hub, conn)
  | some ch =>
      let p := ch.recvAt r.2
      let hub' : ConnectionManagerInner :=
        { hub with session_channels := alInsert hub.session_channels r.1 p.2 }
      match p.1 with
      | .ok e => (hub', { conn with outbox := conn.outbox ++ [e] })
      | _ => (hub', conn)

/-- Interleaved sends and receives on one channel, for the ordering
invariant. -/
inductive ChanAct
  | send (e : ServerMessage)
  | recv (rid : Nat)

/-- Run a sequence of channel actions, logging each delivered message
with the receiver that got it. -/
def runChan : BChannel → List ChanAct → BChannel × List (Nat × ServerMessage)
  | ch, [] => (ch, [])
  | ch, .send e :: rest => runChan (ch.sendMsg e).1 rest
  | ch, .recv rid :: rest =>
      let p := ch.recvAt rid
      let q := runChan p.2 rest
      match p.1 with
      | .ok ev => (q.1, (rid, ev) :: q.2)
      | _ => (q.1, q.2)

/-- The messages a given receiver got out of a delivery log, in order. -/
def receivedBy (rid : Nat) (log : List (Nat × ServerMessage)) : List ServerMessage :=
  log.filterMap (fun p => if p.1 = rid then some p.2 else none)

/-- Drain up to `fuel` currently available messages for receiver `rid`. -/
def BChannel.drain : Nat → BChannel → Nat → List ServerMessage
  | 0, _, _ => []
  | fuel + 1, ch, rid =>
      let p := ch.recvAt rid
      match p.1 with
      | .ok e => e :: BChannel.drain fuel p.2 rid
      | _ => []

/-- All messages currently deliverable to receiver `rid` of the channel
for `session_id`, none if no such channel exists. -/
def deliveredTo (st : ConnectionManagerInner) (session_id : Uuid) (rid : Nat) :
    List ServerMessage :=
  match alGet st.session_channels session_id with
  | some ch => BChannel.drain (ch.sent.length + 1) ch rid
  | none => []

/-! Basic lemmas about the association-list operations. -/

theorem alGet_alInsert_self {V : Type} (m : List (Uuid × V)) (k : Uuid) (v : V) :
    alGet (alInsert m k v) k = some v := by
  induction m with
  | nil => simp [alInsert, alGet]
  | cons p rest ih =>
      rcases p with ⟨k', v'⟩
      by_cases h : k' = k
      · simp [alInsert, alGet, h]
      · simp [alInsert, alGet, h, ih]

theorem alGet_alInsert_ne {V : Type} (m : List (Uuid × V)) (k k' : Uuid) (v : V)
    (hne : k' ≠ k) : alGet (alInsert m k v) k' = alGet m k' := by
  induction m with
  | nil => simp [alInsert, alGet, Ne.symm hne]
  | cons p rest ih =>
      rcases p with ⟨k₀, v₀⟩
      by_cases h : k₀ = k
      · subst h
        simp [alInsert, alGet, Ne.symm hne]
      · simp only [alInsert, if_neg h]
        by_cases h' : k₀ = k'
        · simp [alGet, h']
        · simp [alGet, h', ih]

theorem alInsert_eq_of_get {V : Type} (m : List (Uuid × V)) (k : Uuid) (v : V)
    (h : alGet m k = some v) : alInsert m k v = m := by
  induction m with
  | nil => simp [alGet] at h
  | cons p rest ih =>
      rcases p with ⟨k₀, v₀⟩
      by_cases hk : k₀ = k
      · subst hk
        simp [alGet] at h
        simp [alInsert, h]
      · simp only [alGet, if_neg hk] at h
        simp [alInsert, hk, ih h]

theorem alGet_alRemove_self {V : Type} (m : List (Uuid × V)) (k : Uuid) :
    alGet (alRemove m k) k = none := by
  induction m with
  | nil => simp [alRemove, alGet]
  | cons p rest ih =>
      rcases p with ⟨k₀, v₀⟩
      by_cases hk : k₀ = k
      · simpa [alRemove, List.filter_cons, hk] using ih
      · simpa [alRemove, List.filter_cons, hk, alGet] using ih

theorem alGet_alRemove_ne {V : Type} (m : List (Uuid × V)) (k k' : Uuid)
    (hne : k' ≠ k) : alGet (alRemove m k) k' = alGet m k' := by
  induction m with
  | nil => simp [alRemove, alGet]
  | cons p rest ih =>
      rcases p with ⟨k₀, v₀⟩
      by_cases hk : k₀ = k
      · subst hk
        simpa [alRemove, List.filter_cons, alGet, Ne.symm hne] using ih
      · by_cases hk' : k₀ = k'
        · simp [alRemove, List.filter_cons, hk, alGet, hk', hne]
        · simpa [alRemove, List.filter_cons, hk, alGet, hk'] using ih

/-! Claim C1. -/

/-- C1, counterexample.  The claim says `broadcast` delivers to the topic
for the session, creating the topic if none exists, and that a publish to
a session with no existing topic still enqueues the event.  On the empty
registry, however, `broadcast` is the identity: no topic is created for
session 0 and the event is discarded. -/
theorem broadcast_missing_topic_cex :
    ConnectionManagerInner.broadcast ConnectionManagerInner.new 0 ServerMessage.Pong
      = ConnectionManagerInner.new ∧
    alGet (ConnectionManagerInner.broadcast ConnectionManagerInner.new 0
        ServerMessage.Pong).session_channels 0 = none := by
  exact ⟨rfl, rfl⟩

/-- C1, amended.  `broadcast(s, e)` never creates a topic: when no
channel exists for `s` the call is the identity on the state, and when
the channel exists but has zero receivers the send fails and is ignored,
again leaving the state unchanged.  Only when the channel exists with at
least one receiver is `e` appended to that channel's buffer, and then
nothing else in the state changes. -/
theorem broadcast_requires_existing_topic (st : ConnectionManagerInner)
    (s : Uuid) (e : ServerMessage) :
    (alGet st.session_channels s = none → st.broadcast s e = st) ∧
    (∀ ch, alGet st.session_channels s = some ch →
      (ch.receivers = [] → st.broadcast s e = st) ∧
      (ch.receivers ≠ [] →
        alGet (st.broadcast s e).session_channels s
            = some { ch with sent := ch.sent ++ [e] } ∧
        (st.broadcast s e).connection_subscriptions = st.connection_subscriptions ∧
        ∀ s', s' ≠ s → alGet (st.broadcast s e).session_channels s'
            = alGet st.session_channels s')) := by
  constructor
  · intro h
    simp [ConnectionManagerInner.broadcast, h]
  · intro ch h
    constructor
    · intro hrecv
      have hsend : (ch.sendMsg e).1 = ch := by
        simp [BChannel.sendMsg, hrecv]
      simp [ConnectionManagerInner.broadcast, h, hsend, alInsert_eq_of_get _ _ _ h]
    · intro hrecv
      have hsend : (ch.sendMsg e).1 = { ch with sent := ch.sent ++ [e] } := by
        simp [BChannel.sendMsg, List.isEmpty_iff, hrecv]
      refine ⟨?_, ?_, ?_⟩
      · simp [ConnectionManagerInner.broadcast, h, hsend, alGet_alInsert_self]
      · simp [ConnectionManagerInner.broadcast, h]
      · intro s' hs'
        simp [ConnectionManagerInner.broadcast, h, alGet_alInsert_ne _ _ _ _ hs']

/-- Concrete channels and registry used by several witnesses. -/
def chEmptyRecv : BChannel := { sent := [], receivers := [], nextRid := 1 }

def chOneRecv : BChannel := { sent := [], receivers := [(0, 0)], nextRid := 1 }

def stW : ConnectionManagerInner :=
  { session_channels := [(3, chEmptyRecv), (5, chOneRecv)],
    connection_subscriptions := [(0, [5]), (2, [])] }

/-- C1 witness: on `stW`, a publish to the zero-subscriber topic 3 is the
identity, and a publish to topic 5 (one receiver) appends the event. -/
theorem broadcast_existing_topic_witness :
    ConnectionManagerInner.broadcast stW 3 ServerMessage.Pong = stW ∧
    alGet (ConnectionManagerInner.broadcast stW 5 ServerMessage.Pong).session_channels 5
      = some { chOneRecv with sent := chOneRecv.sent ++ [ServerMessage.Pong] } := by
  constructor
  · exact ((broadcast_requires_existing_topic stW 3 ServerMessage.Pong).2 chEmptyRecv
      (by decide)).1 (by decide)
  · exact (((broadcast_requires_existing_topic stW 5 ServerMessage.Pong).2 chOneRecv
      (by decide)).2 (by decide)).1

/-! Claim C3. -/

/-- C3, counterexample.  The claim says a second `register_connection` is
a no-op even when the connection's subscription set is non-empty.  After
registering connection 0 and subscribing it to session 5, registering 0
again changes the state: the subscription set is overwritten with the
empty set. -/
theorem register_twice_clears_subscriptions_cex :
    ConnectionManagerInner.register_connection
        ((ConnectionManagerInner.new.register_connection 0).subscribe 0 5).1 0
      ≠ ((ConnectionManagerInner.new.register_connection 0).subscribe 0 5).1 ∧
    alGet ((ConnectionManagerInner.new.register_connection 0).subscribe
        0 5).1.connection_subscriptions 0 = some [5] ∧
    alGet (ConnectionManagerInner.register_connection
        ((ConnectionManagerInner.new.register_connection 0).subscribe 0 5).1
        0).connection_subscriptions 0 = some [] := by
  exact ⟨by decide, rfl, rfl⟩

/-- C3, amended.  `register_connection(c)` always installs a fresh empty
subscription set for `c`, leaving the channels and every other
connection's record unchanged; it is a no-op exactly when `c`'s current
subscription set is already empty, and in particular a second register
with no intervening subscribe is a no-op. -/
theorem register_installs_empty_set (st : ConnectionManagerInner) (c : Uuid) :
    alGet (st.register_connection c).connection_subscriptions c = some [] ∧
    (st.register_connection c).session_channels = st.session_channels ∧
    (∀ c', c' ≠ c → alGet (st.register_connection c).connection_subscriptions c'
        = alGet st.connection_subscriptions c') ∧
    (alGet st.connection_subscriptions c = some [] → st.register_connection c = st) := by
  refine ⟨?_, rfl, ?_, ?_⟩
  · simp [ConnectionManagerInner.register_connection, alGet_alInsert_self]
  · intro c' hc'
    simp [ConnectionManagerInner.register_connection, alGet_alInsert_ne _ _ _ _ hc']
  · intro h
    simp [ConnectionManagerInner.register_connection, alInsert_eq_of_get _ _ _ h]

/-- C3 witness: registering connection 7 on `stW` yields an empty set for
7, and re-registering connection 2 (whose set is already empty) is a
no-op. -/
theorem register_installs_empty_set_witness :
    alGet (stW.register_connection 7).connection_subscriptions 7 = some [] ∧
    stW.register_connection 2 = stW := by
  exact ⟨(register_installs_empty_set stW 7).1,
         (register_installs_empty_set stW 2).2.2.2 (by decide)⟩

/-! Claim C4. -/

/-- C4.  For a registered connection `c`, `unsubscribe(c, s)` removes `s`
from `c`'s subscription set and changes nothing else: the whole channel
map — hence the channel for `s`, its buffered events and every receiver
handle — is untouched, and every other connection's record is
unchanged. -/
theorem unsubscribe_frame (st : ConnectionManagerInner) (c s : Uuid)
    (subs : List Uuid) (h : alGet st.connection_subscriptions c = some subs) :
    (st.unsubscribe c s).session_channels = st.session_channels ∧
    alGet (st.unsubscribe c s).connection_subscriptions c = some (subs.erase s) ∧
    ∀ c', c' ≠ c → alGet (st.unsubscribe c s).connection_subscriptions c'
        = alGet st.connection_subscriptions c' := by
  refine ⟨?_, ?_, ?_⟩
  · simp [ConnectionManagerInner.unsubscribe, h]
  · simp [ConnectionManagerInner.unsubscribe, h, hsRemove, alGet_alInsert_self]
  · intro c' hc'
    simp [ConnectionManagerInner.unsubscribe, h, alGet_alInsert_ne _ _ _ _ hc']

/-- C4 witness: on `stW`, unsubscribing connection 0 from session 5
leaves the channels untouched, empties 0's set, and leaves connection
2's record unchanged. -/
theorem unsubscribe_frame_witness :
    (stW.unsubscribe 0 5).session_channels = stW.session_channels ∧
    alGet (stW.unsubscribe 0 5).connection_subscriptions 0 = some ([5].erase 5) ∧
    alGet (stW.unsubscribe 0 5).connection_subscriptions 2
      = alGet stW.connection_subscriptions 2 := by
  obtain ⟨h1, h2, h3⟩ := unsubscribe_frame stW 0 5 [5] (by decide)
  exact ⟨h1, h2, h3 2 (by decide)⟩

/-! Lemmas about the cleanup fold of `unregister_connection`. -/

theorem cleanupStep_subs (acc : ConnectionManagerInner) (x : Uuid) :
    (ConnectionManagerInner.cleanupStep acc x).connection_subscriptions
      = acc.connection_subscriptions := by
  cases h : alGet acc.session_channels x with
  | none => simp [ConnectionManagerInner.cleanupStep, h]
  | some ch =>
      simp only [ConnectionManagerInner.cleanupStep, h]
      split <;> rfl

theorem cleanupStep_get_ne (acc : ConnectionManagerInner) (x s : Uuid)
    (hne : s ≠ x) :
    alGet (ConnectionManagerInner.cleanupStep acc x).session_channels s
      = alGet acc.session_channels s := by
  cases h : alGet acc.session_channels x with
  | none => simp [ConnectionManagerInner.cleanupStep, h]
  | some ch =>
      simp only [ConnectionManagerInner.cleanupStep, h]
      split
      · simp [alGet_alRemove_ne _ _ _ hne]
      · rfl

theorem cleanupStep_get_opt (acc : ConnectionManagerInner) (x s : Uuid) :
    alGet (ConnectionManagerInner.cleanupStep acc x).session_channels s
        = alGet acc.session_channels s ∨
    alGet (ConnectionManagerInner.cleanupStep acc x).session_channels s = none := by
  by_cases hx : s = x
  · subst hx
    cases h : alGet acc.session_channels s with
    | none => left; simp [ConnectionManagerInner.cleanupStep, h]
    | some ch =>
        simp only [ConnectionManagerInner.cleanupStep, h]
        split
        · right; simp [alGet_alRemove_self]
        · left; exact h
  · left; exact cleanupStep_get_ne acc x s hx

theorem cleanup_fold_subs (l : List Uuid) :
    ∀ acc : ConnectionManagerInner,
      (l.foldl ConnectionManagerInner.cleanupStep acc).connection_subscriptions
        = acc.connection_subscriptions := by
  induction l with
  | nil => intro acc; rfl
  | cons x rest ih =>
      intro acc
      simpa [List.foldl_cons, cleanupStep_subs] using
        (ih (ConnectionManagerInner.cleanupStep acc x)).trans (cleanupStep_subs acc x)

theorem cleanup_fold_get_opt (l : List Uuid) :
    ∀ (acc : ConnectionManagerInner) (s : Uuid),
      alGet (l.foldl ConnectionManagerInner.cleanupStep acc).session_channels s
          = alGet acc.session_channels s ∨
      alGet (l.foldl ConnectionManagerInner.cleanupStep acc).session_channels s
          = none := by
  induction l with
  | nil => intro acc s; left; rfl
  | cons x rest ih =>
      intro acc s
      rcases ih (ConnectionManagerInner.cleanupStep acc x) s with h | h
      · rcases cleanupStep_get_opt acc x s with h' | h'
        · left; simpa [List.foldl_cons, h'] using h
        · right; simpa [List.foldl_cons, h'] using h
      · right; simpa [List.foldl_cons] using h

theorem cleanup_fold_get_none (l : List Uuid) :
    ∀ (acc : ConnectionManagerInner) (s : Uuid),
      alGet acc.session_channels s = none →
      alGet (l.foldl ConnectionManagerInner.cleanupStep acc).session_channels s
        = none := by
  induction l with
  | nil => intro acc s h; exact h
  | cons x rest ih =>
      intro acc s h
      have hstep : alGet (ConnectionManagerInner.cleanupStep acc x).session_channels s
          = none := by
        rcases cleanupStep_get_opt acc x s with h' | h'
        · rw [h', h]
        · exact h'
      simpa [List.foldl_cons] using ih (ConnectionManagerInner.cleanupStep acc x) s hstep

theorem cleanup_fold_removes (l : List Uuid) :
    ∀ (acc : ConnectionManagerInner) (s : Uuid) (ch : BChannel),
      s ∈ l → alGet acc.session_channels s = some ch → ch.receivers = [] →
      alGet (l.foldl ConnectionManagerInner.cleanupStep acc).session_channels s
        = none := by
  induction l with
  | nil => intro acc s ch hmem; exact absurd hmem (List.not_mem_nil s)
  | cons x rest ih =>
      intro acc s ch hmem hch hrecv
      by_cases hx : s = x
      · subst hx
        have hstep : alGet (ConnectionManagerInner.cleanupStep acc s).session_channels s
            = none := by
          simp [ConnectionManagerInner.cleanupStep, hch,
                BChannel.receiver_count, hrecv, alGet_alRemove_self]
        simpa [List.foldl_cons] using
          cleanup_fold_get_none rest (ConnectionManagerInner.cleanupStep acc s) s hstep
      · have hmem' : s ∈ rest := by
          rcases List.mem_cons.mp hmem with h | h
          · exact absurd h hx
          · exact h
        have hch' : alGet (ConnectionManagerInner.cleanupStep acc x).session_channels s
            = some ch := by
          rw [cleanupStep_get_ne acc x s hx]; exact hch
        simpa [List.foldl_cons] using
          ih (ConnectionManagerInner.cleanupStep acc x) s ch hmem' hch' hrecv

/-! Claim C5. -/

/-- C5.  For a registered connection `c`, `unregister_connection(c)`
removes `c`'s record, removes the channel of every session in `c`'s set
whose receiver count is zero, and afterwards `has_subscribers` reports
`false` for every session whose channel had no receivers left (in
particular every session of which `c` was the sole subscriber once its
receiver handle was released). -/
theorem unregister_cleanup (st : ConnectionManagerInner) (c : Uuid)
    (subs : List Uuid) (h : alGet st.connection_subscriptions c = some subs) :
    alGet (st.unregister_connection c).connection_subscriptions c = none ∧
    (∀ s ch, s ∈ subs → alGet st.session_channels s = some ch → ch.receivers = [] →
      alGet (st.unregister_connection c).session_channels s = none) ∧
    (∀ s, (alGet st.session_channels s = none ∨
        ∃ ch, alGet st.session_channels s = some ch ∧ ch.receivers = []) →
      (st.unregister_connection c).has_subscribers s = false) := by
  have hun : st.unregister_connection c
      = subs.foldl ConnectionManagerInner.cleanupStep
          { st with connection_subscriptions :=
              alRemove st.connection_subscriptions c } := by
    simp [ConnectionManagerInner.unregister_connection, h]
  refine ⟨?_, ?_, ?_⟩
  · rw [hun, cleanup_fold_subs]
    exact alGet_alRemove_self _ _
  · intro s ch hs hch hrecv
    rw [hun]
    exact cleanup_fold_removes subs _ s ch hs hch hrecv
  · intro s hcase
    rw [hun]
    rcases hcase with hnone | ⟨ch, hch, hrecv⟩
    · have hres := cleanup_fold_get_none subs
        { st with connection_subscriptions := alRemove st.connection_subscriptions c }
        s hnone
      simp [ConnectionManagerInner.has_subscribers, hres]
    · rcases cleanup_fold_get_opt subs
          { st with connection_subscriptions := alRemove st.connection_subscriptions c }
          s with hopt | hnone2
      · have hres : alGet (subs.foldl ConnectionManagerInner.cleanupStep
            { st with connection_subscriptions :=
                alRemove st.connection_subscriptions c }).session_channels s
            = some ch := by rw [hopt]; exact hch
        simp [ConnectionManagerInner.has_subscribers, hres,
              BChannel.receiver_count, hrecv]
      · simp [ConnectionManagerInner.has_subscribers, hnone2]

/-- Registry with connection 0 registered as the sole (now released)
subscriber of session 3, used to witness the cleanup claim. -/
def stW2 : ConnectionManagerInner :=
  { session_channels := [(3, chEmptyRecv)],
    connection_subscriptions := [(0, [3])] }

/-- C5 witness: unregistering connection 0 on `stW2` deletes its record,
deletes the orphaned channel of session 3, and `has_subscribers 3`
reports false afterwards. -/
theorem unregister_cleanup_witness :
    alGet (stW2.unregister_connection 0).connection_subscriptions 0 = none ∧
    alGet (stW2.unregister_connection 0).session_channels 3 = none ∧
    (stW2.unregister_connection 0).has_subscribers 3 = false := by
  obtain ⟨h1, h2, h3⟩ := unregister_cleanup stW2 0 [3] (by decide)
  exact ⟨h1, h2 3 chEmptyRecv (by decide) (by decide) (by decide),
         h3 3 (Or.inr ⟨chEmptyRecv, by decide, by decide⟩)⟩

/-! Claim C6. -/

/-- C6.  The three no-op conditions never surface an error (all three
operations are total and return no error value): publishing to a session
with zero current subscribers leaves the state unchanged; unsubscribing
from a session the connection never subscribed to (or with the
connection unregistered) leaves the state unchanged; and a second
subscribe to an already-subscribed session is a no-op at the set level —
the subscription sets are unchanged and no topic is created or
destroyed (the hub merely hands out one more receiver handle, which is
the operation's normal return value). -/
theorem noop_conditions_error_free (st : ConnectionManagerInner) (c s : Uuid)
    (e : ServerMessage) :
    ((alGet st.session_channels s = none ∨
        ∃ ch, alGet st.session_channels s = some ch ∧ ch.receivers = []) →
      st.broadcast s e = st) ∧
    ((alGet st.connection_subscriptions c = none ∨
        ∃ subs, alGet st.connection_subscriptions c = some subs ∧ s ∉ subs) →
      st.unsubscribe c s = st) ∧
    (∀ subs ch, alGet st.connection_subscriptions c = some subs → s ∈ subs →
      alGet st.session_channels s = some ch →
      (st.subscribe c s).1.connection_subscriptions = st.connection_subscriptions ∧
      ∀ s', (alGet (st.subscribe c s).1.session_channels s').isSome
          = (alGet st.session_channels s').isSome) := by
  refine ⟨?_, ?_, ?_⟩
  · rintro (hnone | ⟨ch, hch, hrecv⟩)
    · simp [ConnectionManagerInner.broadcast, hnone]
    · have hsend : (ch.sendMsg e).1 = ch := by simp [BChannel.sendMsg, hrecv]
      simp [ConnectionManagerInner.broadcast, hch, hsend,
            alInsert_eq_of_get _ _ _ hch]
  · rintro (hnone | ⟨subs, hsubs, hmem⟩)
    · simp [ConnectionManagerInner.unsubscribe, hnone]
    · have h1 : hsRemove subs s = subs := List.erase_of_not_mem hmem
      simp [ConnectionManagerInner.unsubscribe, hsubs, h1,
            alInsert_eq_of_get _ _ _ hsubs]
  · intro subs ch hsubs hmem hch
    have h1 : hsInsert subs s = subs := by simp [hsInsert, hmem]
    constructor
    · simp [ConnectionManagerInner.subscribe, hsubs, h1,
            alInsert_eq_of_get _ _ _ hsubs]
    · intro s'
      by_cases hs' : s' = s
      · subst hs'
        simp [ConnectionManagerInner.subscribe, hch, alGet_alInsert_self]
      · simp [ConnectionManagerInner.subscribe, hch,
              alGet_alInsert_ne _ _ _ _ hs']

/-- C6 witness: on `stW`, publishing to the zero-subscriber topic 3 is
the identity, unsubscribing connection 0 from the never-subscribed
session 7 is the identity, and re-subscribing connection 0 to session 5
leaves the subscription sets unchanged. -/
theorem noop_conditions_error_free_witness :
    ConnectionManagerInner.broadcast stW 3 ServerMessage.Pong = stW ∧
    ConnectionManagerInner.unsubscribe stW 0 7 = stW ∧
    (ConnectionManagerInner.subscribe stW 0 5).1.connection_subscriptions
      = stW.connection_subscriptions := by
  refine ⟨?_, ?_, ?_⟩
  · exact (noop_conditions_error_free stW 0 3 ServerMessage.Pong).1
      (Or.inr ⟨chEmptyRecv, by decide, rfl⟩)
  · exact (noop_conditions_error_free stW 0 7 ServerMessage.Pong).2.1
      (Or.inr ⟨[5], by decide, by decide⟩)
  · exact ((noop_conditions_error_free stW 0 5 ServerMessage.Pong).2.2 [5] chOneRecv
      (by decide) (by decide) (by decide)).1

/-! Claim C10. -/

/-- C10.  Subscribing an unregistered connection `c` to a fresh session
`s` records nothing in any connection record, yet still creates the
topic and returns a live receiver for it; after that receiver is
dropped, `unregister_connection c` is the identity (no orphan re-check
runs for `s`), so the topic remains in the registry with zero
subscribers. -/
theorem subscribe_unregistered_connection (st : ConnectionManagerInner)
    (c s : Uuid) (hc : alGet st.connection_subscriptions c = none)
    (hs : alGet st.session_channels s = none) :
    (st.subscribe c s).1.connection_subscriptions = st.connection_subscriptions ∧
    (st.subscribe c s).2 = (s, 0) ∧
    alGet (st.subscribe c s).1.session_channels s
      = some { sent := [], receivers := [(0, 0)], nextRid := 1 } ∧
    ((st.subscribe c s).1.dropReceiverH (st.subscribe c s).2).unregister_connection c
      = (st.subscribe c s).1.dropReceiverH (st.subscribe c s).2 ∧
    alGet ((st.subscribe c s).1.dropReceiverH
        (st.subscribe c s).2).session_channels s
      = some { sent := [], receivers := [], nextRid := 1 } ∧
    ((st.subscribe c s).1.dropReceiverH (st.subscribe c s).2).has_subscribers s
      = false := by
  have hsub : st.subscribe c s
      = ({ session_channels := alInsert st.session_channels s
             { sent := [], receivers := [(0, 0)], nextRid := 1 },
           connection_subscriptions := st.connection_subscriptions }, (s, 0)) := by
    simp [ConnectionManagerInner.subscribe, hc, hs, BChannel.new, BChannel.subscribeCh]
  rw [hsub]
  have hdrop : ConnectionManagerInner.dropReceiverH
      { session_channels := alInsert st.session_channels s
          { sent := [], receivers := [(0, 0)], nextRid := 1 },
        connection_subscriptions := st.connection_subscriptions } (s, 0)
      = { session_channels := alInsert (alInsert st.session_channels s
            { sent := [], receivers := [(0, 0)], nextRid := 1 }) s
            { sent := [], receivers := [], nextRid := 1 },
          connection_subscriptions := st.connection_subscriptions } := by
    simp [ConnectionManagerInner.dropReceiverH, alGet_alInsert_self,
          BChannel.dropReceiver, alRemove]
  refine ⟨rfl, rfl, alGet_alInsert_self _ _ _, ?_, ?_, ?_⟩
  · rw [hdrop]
    simp [ConnectionManagerInner.unregister_connection, hc]
  · rw [hdrop]
    exact alGet_alInsert_self _ _ _
  · rw [hdrop]
    simp [ConnectionManagerInner.has_subscribers, alGet_alInsert_self,
          BChannel.receiver_count]

/-- C10 witness: on `stW` with the unregistered connection 7 and the
fresh session 11, the subscribe still creates the topic and the topic
survives `unregister_connection 7` with zero subscribers. -/
theorem subscribe_unregistered_connection_witness :
    (stW.subscribe 7 11).1.connection_subscriptions = stW.connection_subscriptions ∧
    alGet ((stW.subscribe 7 11).1.dropReceiverH
        (stW.subscribe 7 11).2).session_channels 11
      = some { sent := [], receivers := [], nextRid := 1 } ∧
    ((stW.subscribe 7 11).1.dropReceiverH (stW.subscribe 7 11).2).has_subscribers 11
      = false := by
  obtain ⟨h1, _, _, _, h5, h6⟩ :=
    subscribe_unregistered_connection stW 7 11 (by decide) (by decide)
  exact ⟨h1, h5, h6⟩

/-! Claim C7. -/

/-- C7.  A text frame that fails to decode produces exactly one `Error`
envelope on the connection's outbound queue, leaves the hub state
unchanged and keeps the connection open (the loop continues); a
subsequent valid command (here a `Ping`) is still processed and answered
with `Pong`. -/
theorem decode_failure_single_error_remains_open (cid : Uuid)
    (hub : ConnectionManagerInner) (conn : ConnState) (emsg : String) :
    handleFrame cid hub conn (Frame.text (Except.error emsg))
      = (hub,
         { conn with outbox := conn.outbox
             ++ [ServerMessage.Error ("Invalid message format: " ++ emsg)] },
         true) ∧
    (handleFrame cid hub
        (handleFrame cid hub conn (Frame.text (Except.error emsg))).2.1
        (Frame.text (Except.ok ClientMessage.Ping))).2.1.outbox
      = conn.outbox ++ [ServerMessage.Error ("Invalid message format: " ++ emsg),
                        ServerMessage.Pong] := by
  refine ⟨rfl, ?_⟩
  simp [handleFrame, handleClientMessage]

/-! Claim C2. -/

/-- C2, failing run.  The multiplexer does not de-duplicate forwarding
tasks: after connection 0 sends `Subscribe 5` twice, two forwarding
tasks exist for the pair (0, 5) — each holding its own receiver — and a
single event published to session 5 ends up twice in the connection's
outbound queue once both forwarding tasks run. -/
theorem double_subscribe_double_delivery :
    (let hub0 := ConnectionManagerInner.new.register_connection 0
     let conn0 : ConnState := { outbox := [], forwarders := [] }
     let p1 := handleFrame 0 hub0 conn0 (Frame.text (Except.ok (ClientMessage.Subscribe 5)))
     let p2 := handleFrame 0 p1.1 p1.2.1 (Frame.text (Except.ok (ClientMessage.Subscribe 5)))
     let e := ServerMessage.Output 5 OutputStream.Stdout "hello"
     let hub3 := p2.1.broadcast 5 e
     let q1 := pumpOnce hub3 p2.2.1 (5, 0)
     let q2 := pumpOnce q1.1 q1.2 (5, 1)
     p2.2.1.forwarders = [(5, 0), (5, 1)] ∧ q2.2.outbox.count e = 2) := by
  decide

/-! Claim C9. -/

/-- Register each connection id in turn. -/
def regAll (st : ConnectionManagerInner) (l : List Uuid) : ConnectionManagerInner :=
  l.foldl ConnectionManagerInner.register_connection st

/-- Subscribe each connection in turn to the session, collecting the
returned receivers. -/
def subAll : ConnectionManagerInner → List Uuid → Uuid →
    ConnectionManagerInner × List (Uuid × Nat)
  | st, [], _ => (st, [])
  | st, c :: cs, s =>
      let p := st.subscribe c s
      let q := subAll p.1 cs s
      (q.1, p.2 :: q.2)

/-- The event of the fan-out scenario of the spec. -/
def boomMsg : ServerMessage := ServerMessage.Output 9 OutputStream.Stderr "boom"

/-- Register the given connections, subscribe each once to session 9,
then publish `boomMsg` once; returns the final state and the receivers
handed to the connections. -/
def fanoutRun (conns : List Uuid) : ConnectionManagerInner × List (Uuid × Nat) :=
  let r := regAll ConnectionManagerInner.new conns
  let p := subAll r conns 9
  (ConnectionManagerInner.broadcast p.1 9 boomMsg, p.2)

/-- C9.  For N ∈ {1, 2, 5} connections each subscribed once to session
9, the connections hold pairwise distinct receivers (one per
connection), and after a single publish each connection's receiver
delivers exactly one copy of the event — every connection receives it,
none more than once. -/
theorem fanout_exactly_once :
    ∀ conns ∈ [[0], [0, 1], [0, 1, 2, 3, 4]],
      (fanoutRun conns).2.map Prod.snd = List.range conns.length ∧
      ∀ r ∈ (fanoutRun conns).2,
        deliveredTo (fanoutRun conns).1 9 r.2 = [boomMsg] := by
  decide

/-- C9 witness: the two-connection instance of the fan-out theorem —
both connections' receivers deliver exactly one copy of the event. -/
theorem fanout_exactly_once_witness :
    (fanoutRun [0, 1]).2.map Prod.snd = List.range 2 ∧
    ∀ r ∈ (fanoutRun [0, 1]).2,
      deliveredTo (fanoutRun [0, 1]).1 9 r.2 = [boomMsg] :=
  fanout_exactly_once [0, 1] (by decide)

/-! Claim C8: ordering of deliveries on one channel. -/

theorem receivedBy_cons (rid r : Nat) (e : ServerMessage)
    (log : List (Nat × ServerMessage)) :
    receivedBy rid ((r, e) :: log)
      = if r = rid then e :: receivedBy rid log else receivedBy rid log := by
  by_cases h : r = rid <;> simp [receivedBy, List.filterMap_cons, h]

theorem sendMsg_receivers (ch : BChannel) (e : ServerMessage) :
    (ch.sendMsg e).1.receivers = ch.receivers := by
  unfold BChannel.sendMsg
  split <;> rfl

theorem sendMsg_sent_ext (ch : BChannel) (e : ServerMessage) :
    ∃ t, (ch.sendMsg e).1.sent = ch.sent ++ t := by
  unfold BChannel.sendMsg
  split
  · exact ⟨[], by simp⟩
  · exact ⟨[e], rfl⟩

theorem recvAt_sent (ch : BChannel) (rid : Nat) :
    (ch.recvAt rid).2.sent = ch.sent := by
  unfold BChannel.recvAt
  cases h : alGet ch.receivers rid with
  | none => rfl
  | some c =>
      dsimp only
      split
      · split <;> rfl
      · rfl

theorem runChan_sent_ext (acts : List ChanAct) :
    ∀ ch : BChannel, ∃ t, (runChan ch acts).1.sent = ch.sent ++ t := by
  induction acts with
  | nil => intro ch; exact ⟨[], by simp [runChan]⟩
  | cons a rest ih =>
      intro ch
      cases a with
      | send e =>
          obtain ⟨t, ht⟩ := ih (ch.sendMsg e).1
          obtain ⟨t0, ht0⟩ := sendMsg_sent_ext ch e
          exact ⟨t0 ++ t, by simp [runChan, ht, ht0, List.append_assoc]⟩
      | recv rid =>
          obtain ⟨t, ht⟩ := ih (ch.recvAt rid).2
          refine ⟨t, ?_⟩
          simp only [runChan]
          rcases hres : (ch.recvAt rid).1 with e | _ | _ <;>
            simp [hres, ht, recvAt_sent]

theorem drop_sublist_drop_of_le {α : Type} (l : List α) {m n : Nat} (h : m ≤ n) :
    List.Sublist (l.drop n) (l.drop m) := by
  have heq : l.drop n = (l.drop m).drop (n - m) := by
    rw [List.drop_drop]
    congr 1
    omega
  rw [heq]
  exact List.drop_sublist _ _

theorem recv_order_aux (rid : Nat) (acts : List ChanAct) :
    ∀ (ch : BChannel) (c : Nat), alGet ch.receivers rid = some c →
      List.Sublist (receivedBy rid (runChan ch acts).2)
        ((runChan ch acts).1.sent.drop c) := by
  induction acts with
  | nil =>
      intro ch c h
      simp only [runChan, receivedBy, List.filterMap_nil]
      exact List.nil_sublist _
  | cons a rest ih =>
      intro ch c h
      cases a with
      | send e =>
          have h' : alGet (ch.sendMsg e).1.receivers rid = some c := by
            rw [sendMsg_receivers]; exact h
          simpa [runChan] using ih (ch.sendMsg e).1 c h'
      | recv rid' =>
          cases hg : alGet ch.receivers rid' with
          | none =>
              have hr : ch.recvAt rid' = (RecvResult.empty, ch) := by
                simp [BChannel.recvAt, hg]
              simpa [runChan, hr] using ih ch c h
          | some c' =>
              by_cases h1 : c' < ch.sent.length
              · by_cases h2 : c' < ch.sent.length - CHANNEL_CAPACITY
                · -- lagged: the cursor jumps forward to the oldest retained index
                  set chL : BChannel := { ch with receivers := alInsert ch.receivers rid' (ch.sent.length - CHANNEL_CAPACITY) } with hchL
                  have hr : ch.recvAt rid' = (RecvResult.lagged, chL) := by
                    simp [BChannel.recvAt, hg, h1, h2, hchL]
                  by_cases hrid : rid' = rid
                  · subst hrid
                    have hcc : c' = c := by
                      rw [h] at hg; exact (Option.some_inj.mp hg).symm
                    subst hcc
                    have h' : alGet chL.receivers rid'
                        = some (ch.sent.length - CHANNEL_CAPACITY) := by
                      rw [hchL]; exact alGet_alInsert_self _ _ _
                    have hrec := ih chL _ h'
                    have hmono := drop_sublist_drop_of_le
                      ((runChan chL rest).1.sent) (Nat.le_of_lt h2)
                    simpa [runChan, hr] using hrec.trans hmono
                  · have h' : alGet chL.receivers rid = some c := by
                      rw [hchL]
                      rw [alGet_alInsert_ne _ _ _ _ (fun he => hrid he.symm)]
                      exact h
                    simpa [runChan, hr] using ih chL c h'
                · -- a message is delivered
                  set chO : BChannel := { ch with receivers := alInsert ch.receivers rid' (c' + 1) } with hchO
                  have hr : ch.recvAt rid' = (RecvResult.ok (ch.sent.get ⟨c', h1⟩), chO) := by
                    simp [BChannel.recvAt, hg, h1, h2, hchO]
                  by_cases hrid : rid' = rid
                  · subst hrid
                    have hcc : c' = c := by
                      rw [h] at hg; exact (Option.some_inj.mp hg).symm
                    subst hcc
                    have h' : alGet chO.receivers rid' = some (c' + 1) := by
                      rw [hchO]; exact alGet_alInsert_self _ _ _
                    have hrec := ih chO _ h'
                    obtain ⟨t, ht⟩ := runChan_sent_ext rest chO
                    have hsentO : chO.sent = ch.sent := by rw [hchO]
                    rw [hsentO] at ht
                    have hlen : c' < (runChan chO rest).1.sent.length := by
                      rw [ht]
                      simp only [List.length_append]
                      omega
                    have hget : (runChan chO rest).1.sent.get ⟨c', hlen⟩
                        = ch.sent.get ⟨c', h1⟩ := by
                      simp only [List.get_eq_getElem, ht]
                      exact List.getElem_append_left h1
                    have hdrop : (runChan chO rest).1.sent.drop c'
                        = ch.sent.get ⟨c', h1⟩
                            :: (runChan chO rest).1.sent.drop (c' + 1) := by
                      rw [List.drop_eq_getElem_cons hlen]
                      have hx : (runChan chO rest).1.sent[c'] = ch.sent.get ⟨c', h1⟩ := by
                        simpa [List.get_eq_getElem] using hget
                      rw [hx]
                    simp only [runChan, hr]
                    rw [receivedBy_cons]
                    simp only [if_pos rfl]
                    rw [hdrop]
                    exact hrec.cons₂ _
                  · have h' : alGet chO.receivers rid = some c := by
                      rw [hchO]
                      rw [alGet_alInsert_ne _ _ _ _ (fun he => hrid he.symm)]
                      exact h
                    have hrec := ih chO c h'
                    simp only [runChan, hr]
                    rw [receivedBy_cons]
                    simp only [if_neg hrid]
                    exact hrec
              · have hr : ch.recvAt rid' = (RecvResult.empty, ch) := by
                  simp [BChannel.recvAt, hg, h1]
                simpa [runChan, hr] using ih ch c h

/-- C8.  Any subscriber of a topic, over any interleaving of publishes
and receives after its subscription (its cursor starts at the current
end of the history), receives an order-preserving, duplication-free
selection of exactly the events published to that topic after it
subscribed: the received sequence is a sublist of the published suffix,
so no two events of the topic are ever reordered and dropped events are
only skipped, never replayed. -/
theorem events_delivered_in_publish_order (ch : BChannel) (acts : List ChanAct)
    (rid : Nat) (h : alGet ch.receivers rid = some ch.sent.length) :
    List.Sublist (receivedBy rid (runChan ch acts).2)
      ((runChan ch acts).1.sent.drop ch.sent.length) :=
  recv_order_aux rid acts ch ch.sent.length h

/-- C8 witness: a fresh subscriber receiving across two publishes gets
both events in publish order. -/
theorem events_delivered_in_publish_order_witness :
    List.Sublist
      (receivedBy 0 (runChan { sent := [], receivers := [(0, 0)], nextRid := 1 }
        [ChanAct.send ServerMessage.Pong, ChanAct.recv 0,
         ChanAct.send (ServerMessage.Error "x"), ChanAct.recv 0]).2)
      ((runChan { sent := [], receivers := [(0, 0)], nextRid := 1 }
        [ChanAct.send ServerMessage.Pong, ChanAct.recv 0,
         ChanAct.send (ServerMessage.Error "x"), ChanAct.recv 0]).1.sent.drop 0) :=
  events_delivered_in_publish_order
    { sent := [], receivers := [(0, 0)], nextRid := 1 } _ 0 (by decide)

end GasCountry
